import Mathlib

/-!
Shallow embedding of the beacon-in-a-box pulse generator
(payload codec, pulse assembler state machine, cross-stitch refresh,
HSM key-id parsing, messenger receive logic), with theorems checking
the natural-language specification against the code.

Byte strings are `List Nat`; timestamps mirror `chrono::DateTime<Utc>`
as whole seconds plus a nanosecond part; machine hashing (the multihash
code table) is a parameter `codeDigest`, with `codeSupported` standing
for `Code::try_from` succeeding.
-/

/-- A multihash: a code identifying the hash algorithm together with the
digest bytes.  `size` is the digest length (the stored size of a
well-formed multihash always equals its digest length). -/
structure Multihash where
  code : Nat
  digest : List Nat
deriving DecidableEq, Repr

def Multihash.size (m : Multihash) : Nat := m.digest.length

/-- A UTC timestamp as in `chrono::DateTime<Utc>`: whole seconds since
epoch plus a subsecond nanosecond component. -/
structure DateTime where
  secs : Int
  nanos : Nat
deriving DecidableEq, Repr

/-- `timestamp_subsec_millis()` of chrono: the subsecond part expressed
in whole milliseconds. -/
def DateTime.subsecMillis (t : DateTime) : Nat := t.nanos / 1000000

/-- Lexicographic order on (secs, nanos), as chrono compares instants. -/
def DateTime.lt (a b : DateTime) : Bool :=
  a.secs < b.secs || (a.secs == b.secs && a.nanos < b.nanos)

/-- `VerificationError` of the twine library, restricted to the variants
the payload codec produces. -/
inductive VerificationError where
  | payload (msg : String)
  | unsupportedHashAlgorithm
deriving DecidableEq, Repr

/-- The raw randomness payload: `salt`, precommitment `pre`, `timestamp`
(`RandomnessPayloadRaw` in payload.rs). -/
structure RandomnessPayloadRaw where
  salt : List Nat
  pre : Multihash
  timestamp : DateTime
deriving DecidableEq, Repr

/-- `RandomnessPayloadRaw::verify`: salt length must equal the pre hash
size, and the timestamp must have no whole milliseconds. -/
def RandomnessPayloadRaw.verify (p : RandomnessPayloadRaw) :
    Except VerificationError Unit :=
  if p.salt.length ≠ p.pre.size then
    .error (.payload "Salt length does not match pre hash size")
  else if p.timestamp.subsecMillis ≠ 0 then
    .error (.payload "Timestamp has milliseconds")
  else
    .ok ()

/-- `RandomnessPayload::try_new`: wraps the raw payload after `verify`
succeeds (the `Verified` smart constructor). -/
def RandomnessPayload.try_new (salt : List Nat) (pre : Multihash)
    (timestamp : DateTime) : Except VerificationError RandomnessPayloadRaw :=
  let raw : RandomnessPayloadRaw := ⟨salt, pre, timestamp⟩
  match raw.verify with
  | .ok _ => .ok raw
  | .error e => .error e

/-- A predecessor tixel as the payload codec sees it: the hash of its
content identifier and its randomness payload. -/
structure Tixel where
  cidHash : Multihash
  payload : RandomnessPayloadRaw
deriving DecidableEq, Repr

/-- `Tixel::extract_payload::<RandomnessPayload>`: deserializing into the
`Verified` wrapper re-runs `verify`. -/
def Tixel.extractPayload (t : Tixel) :
    Except VerificationError RandomnessPayloadRaw :=
  match t.payload.verify with
  | .ok _ => .ok t.payload
  | .error e => .error e

/-- `Code::try_from(code)`: succeeds exactly for the codes the multihash
code table supports. -/
def tryFromCode (codeSupported : Nat → Bool) (c : Nat) :
    Except VerificationError Nat :=
  if codeSupported c then .ok c else .error .unsupportedHashAlgorithm

/-- Modelled from the spec: `crate::timing::next_pulse_timestamp` is not
under src/; §4.4 defines it as `prev_ts + period` (period in whole
seconds). -/
def nextPulseTimestamp (ts : DateTime) (periodSecs : Int) : DateTime :=
  ⟨ts.secs + periodSecs, ts.nanos⟩

/-- `RandomnessPayload::from_rand`: checks the reveal against the
predecessor's precommitment, xors the reveal with the predecessor's cid
digest to form the salt, and advances the timestamp by one period. -/
def RandomnessPayload.from_rand (codeSupported : Nat → Bool)
    (codeDigest : Nat → List Nat → Multihash) (rand : List Nat)
    (pre : Multihash) (prev : Tixel) (periodSecs : Int) :
    Except VerificationError RandomnessPayloadRaw :=
  match prev.extractPayload with
  | .error e => .error e
  | .ok prevPayload =>
    match tryFromCode codeSupported prevPayload.pre.code with
    | .error e => .error e
    | .ok code =>
      if prevPayload.pre ≠ codeDigest code rand then
        .error (.payload "Precommitment does not match random bytes")
      else if prev.cidHash.size ≠ pre.size then
        .error
          (.payload "Pre hash size does not match previous tixel hash size")
      else
        let salt := List.zipWith Nat.xor rand prev.cidHash.digest
        let timestamp := nextPulseTimestamp prevPayload.timestamp periodSecs
        RandomnessPayload.try_new salt pre timestamp

/-- `RandomnessPayload::validate_randomness`: size check, timestamp
check against the predecessor, then the precommitment re-derivation.
Note the source compares the re-derived hash with the payload's own
`pre` field (`self.0.pre`), not the predecessor's. -/
def RandomnessPayload.validate_randomness (codeSupported : Nat → Bool)
    (codeDigest : Nat → List Nat → Multihash) (p : RandomnessPayloadRaw)
    (prev : Tixel) : Except VerificationError Unit :=
  if prev.cidHash.size ≠ p.pre.size then
    .error (.payload "Pre hash size does not match previous tixel hash size")
  else
    match prev.extractPayload with
    | .error e => .error e
    | .ok prevPayload =>
      if p.timestamp.lt prevPayload.timestamp then
        .error (.payload "Timestamp is less than previous tixel timestamp")
      else
        let rand := List.zipWith Nat.xor p.salt prev.cidHash.digest
        match tryFromCode codeSupported prevPayload.pre.code with
        | .error e => .error e
        | .ok code =>
          let pre := codeDigest code rand
          if pre ≠ p.pre then
            .error (.payload "Pre hash does not match previous tixel pre hash")
          else
            .ok ()

/-- A concrete, executable stand-in hash for evaluating the codec at
specific inputs: digest is the byte sum and the length, mod 256. -/
def exDigest (c : Nat) (data : List Nat) : Multihash :=
  ⟨c, [(data.foldl (· + ·) 0) % 256, data.length % 256]⟩

/-- Stand-in code table for concrete evaluation: every code supported. -/
def exSupported : Nat → Bool := fun _ => true

/-- `AssemblyState` of pulse_assembler.rs, generic over the type of a
built twine (pulse). -/
inductive AssemblyState (T : Type) where
  | beginStrand (periodSecs : Int)
  | prepared (rand : List Nat) (pulse : T)
  | released (rand : List Nat) (latest : T)
deriving DecidableEq, Repr

/-- Errors of the assembler operations (anyhow errors in the source,
distinguished here by variant). -/
inductive AssemblerError where
  | prepareNotNeeded
  | publishNotPrepared
  | storeSaveFailed
  | buildFailed
  | rngWriteFailed
  | resolutionFailed
  | rngReadFailed
  | invalidRngLength (len : Nat)
deriving DecidableEq, Repr

/-- Externally visible side effects of `publish`, in the order they
become durable. -/
inductive Effect (T : Type) where
  | storeSave (pulse : T)
  | rngWrite (bytes : List Nat)
deriving DecidableEq, Repr

/-- `PulseAssembler::needs_assembly`. -/
def needs_assembly {T : Type} (st : AssemblyState T) : Bool :=
  match st with
  | .beginStrand _ => true
  | .prepared _ _ => false
  | .released _ _ => true

/-- `PulseAssembler::needs_publish`. -/
def needs_publish {T : Type} (st : AssemblyState T) : Bool :=
  match st with
  | .beginStrand _ => false
  | .prepared _ _ => true
  | .released _ _ => false

/-- `PulseAssembler::publish`, with the outcomes of the external store
save and of the `rng.dat` write passed in as booleans.  Returns the
result, the state after the call, and the list of durable effects in
order. -/
def publish {T : Type} (st : AssemblyState T) (saveOk : Bool)
    (writeOk : Bool) :
    Except AssemblerError T × AssemblyState T × List (Effect T) :=
  match st with
  | .prepared rand pulse =>
    if saveOk then
      if writeOk then
        (.ok pulse, .released rand pulse,
          [.storeSave pulse, .rngWrite rand])
      else
        (.error .rngWriteFailed, .prepared rand pulse, [.storeSave pulse])
    else
      (.error .storeSaveFailed, .prepared rand pulse, [])
  | st => (.error .publishNotPrepared, st, [])

/-- `PulseAssembler::prepare_next`, with the outcomes of the external
calls passed in: `saveStrandOk` for the initial strand save in the
`BeginStrand` branch, and `buildFirst` / `buildNext` for the builder
(payload validation, building and signing folded into one result, as
`build_payload_then_done` surfaces them as one error). -/
def prepare_next {T : Type} (st : AssemblyState T) (randNext : List Nat)
    (saveStrandOk : Bool) (buildFirst : Except AssemblerError T)
    (buildNext : Except AssemblerError T) :
    Except AssemblerError Unit × AssemblyState T :=
  match st with
  | .prepared rand pulse => (.error .prepareNotNeeded, .prepared rand pulse)
  | .beginStrand p =>
    if saveStrandOk then
      match buildFirst with
      | .ok t => (.ok (), .prepared randNext t)
      | .error e => (.error e, .beginStrand p)
    else
      (.error .storeSaveFailed, .beginStrand p)
  | .released rand latest =>
    match buildNext with
    | .ok t => (.ok (), .prepared randNext t)
    | .error e => (.error e, .released rand latest)

/-- Outcome of `store.resolve_latest` as `PulseAssembler::latest`
distinguishes it. -/
inductive ResolveLatest (T : Type) where
  | found (latest : T)
  | notFound
  | otherError
deriving DecidableEq, Repr

/-- `PulseAssembler::load_state` (the body of `init`): no-op when a
state is already loaded; otherwise branch on the store's latest pulse,
reading `rng.dat` (`none` models a read error) in the found case. -/
def load_state {T : Type} (st : Option (AssemblyState T))
    (periodSecs : Int) (resolve : ResolveLatest T)
    (rngFile : Option (List Nat)) :
    Except AssemblerError (Option (AssemblyState T)) :=
  match st with
  | some s => .ok (some s)
  | none =>
    match resolve with
    | .otherError => .error .resolutionFailed
    | .notFound => .ok (some (.beginStrand periodSecs))
    | .found latest =>
      match rngFile with
      | none => .error .rngReadFailed
      | some bytes =>
        if bytes.length = 64 then .ok (some (.released bytes latest))
        else .error (.invalidRngLength bytes.length)

/-- A cross-stitch: a foreign strand identifier together with the
identifier of its latest observed tixel. -/
structure Stitch where
  strand : Nat
  tixel : Nat
deriving DecidableEq, Repr

/-- An entry of the YAML stitch config (stitch_config.rs). -/
structure StitchEntry where
  strand : Nat
  resolver : String
  stop : Bool
deriving DecidableEq, Repr

/-- `StitchConfig::strands`: the strands of the non-stop entries. -/
def StitchConfig.strands (stitches : List StitchEntry) : List Nat :=
  (stitches.filter (fun e => !e.stop)).map (fun e => e.strand)

/-- Modelled from the spec: `CrossStitches::add_or_refresh` lives in the
external twine library; §4.3 says it resolves the given strand and on
success replaces or inserts that strand's entry, leaving the others
unchanged, and on resolution failure returns an error.  `res` carries
the resolution outcome for the strand. -/
def addOrRefresh (xs : List Stitch) (cid : Nat) (res : Option Nat) :
    Option (List Stitch) :=
  match res with
  | none => none
  | some t =>
    if xs.any (fun s => s.strand == cid) then
      some (xs.map (fun s => if s.strand == cid then ⟨cid, t⟩ else s))
    else
      some (xs ++ [⟨cid, t⟩])

/-- One iteration of the loop in `refresh_stitches` (main.rs): on
success adopt the updated set, on error keep the current one. -/
def refreshStep (res : Nat → Option Nat) (acc : List Stitch) (cid : Nat) :
    List Stitch :=
  match addOrRefresh acc cid (res cid) with
  | some updated => updated
  | none => acc

/-- `refresh_stitches` (main.rs): fold the configured non-stop strands
over the previous cross-stitch set; entries outside that set are only
logged, never touched. -/
def refresh_stitches (xs : List Stitch) (stitches : List StitchEntry)
    (res : Nat → Option Nat) : List Stitch :=
  (StitchConfig.strands stitches).foldl (refreshStep res) xs

/-- Outcome of running a Rust function that may panic: a panic, an
`Err`, or an `Ok` value. -/
inductive POut (α : Type) where
  | panicked
  | err
  | ok (v : α)
deriving DecidableEq, Repr

/-- A UTF-8 continuation byte (0x80..0xBF); `str::split_at` panics when
the split index lands on one. -/
def isUtf8Cont (b : Nat) : Bool := 128 ≤ b && b < 192

/-- Value of one ASCII byte as a digit in the given radix, as
`from_str_radix` reads it: 0-9, a-f, A-F, rejected when ≥ radix. -/
def digitVal (radix b : Nat) : Option Nat :=
  if 48 ≤ b ∧ b ≤ 57 then
    if b - 48 < radix then some (b - 48) else none
  else if 97 ≤ b ∧ b ≤ 102 then
    if b - 87 < radix then some (b - 87) else none
  else if 65 ≤ b ∧ b ≤ 70 then
    if b - 55 < radix then some (b - 55) else none
  else none

/-- One accumulation step of `u16::from_str_radix`: multiply, add the
digit, fail on a non-digit or on overflow past 65535. -/
def stepU16 (radix : Nat) (acc : Option Nat) (b : Nat) : Option Nat :=
  match acc, digitVal radix b with
  | some a, some d => if a * radix + d ≤ 65535 then some (a * radix + d) else none
  | _, _ => none

/-- Digit run of `u16::from_str_radix` after an absent or `+` sign:
empty input is an error. -/
def parseDigitsPos (radix : Nat) (s : List Nat) : Option Nat :=
  if s.isEmpty then none else s.foldl (stepU16 radix) (some 0)

/-- `u16::from_str_radix` over the bytes of the string: an optional
`+` sign (byte 43) then digits, `none` for any parse error.  For an
unsigned target the parser never consumes a `-` sign, so a leading
`-` (byte 45) falls through to the digit run and fails as an invalid
digit. -/
def fromStrRadixU16 (radix : Nat) (s : List Nat) : Option Nat :=
  match s with
  | [] => none
  | b :: rest =>
    if b = 43 then parseDigitsPos radix rest
    else parseDigitsPos radix (b :: rest)

/-- `parse_u16` (main.rs) over the bytes of the input string:
`split_at(2)` panics when the string is shorter than two bytes or byte
index 2 is not a char boundary; a `0x` prefix selects hex, anything
else decimal over the whole string. -/
def parse_u16 (s : List Nat) : POut Nat :=
  match s with
  | [] => .panicked
  | [_] => .panicked
  | a :: b :: rest =>
    if isUtf8Cont (rest.headD 0) then .panicked
    else if a = 48 ∧ b = 120 then
      match fromStrRadixU16 16 rest with
      | some v => .ok v
      | none => .err
    else
      match fromStrRadixU16 10 (a :: b :: rest) with
      | some v => .ok v
      | none => .err

/-- A framed inter-process message (messages.rs). -/
structure Message where
  id : Nat
  timestamp : DateTime
  command : String
  payload : Option (List Nat)
deriving DecidableEq, Repr

/-- The pure core of `Messenger::receive`, applied to an already
deserialized (well-formed) incoming message: compare against the stored
latest message, returning the accepted message (or `none`) together
with the stored latest after the call. -/
def Messenger.receive (latest : Option Message) (m : Message) :
    Option Message × Option Message :=
  match latest with
  | some l =>
    if m.timestamp.lt l.timestamp then (none, some l)
    else if m.id = l.id then (none, some l)
    else (some m, some m)
  | none => (some m, some m)

/-- Successful `try_new` returns exactly the raw payload built from its
arguments, and that payload satisfied both `verify` checks. -/
theorem try_new_ok (salt : List Nat) (pre : Multihash) (ts : DateTime)
    (pl : RandomnessPayloadRaw)
    (h : RandomnessPayload.try_new salt pre ts = .ok pl) :
    pl = ⟨salt, pre, ts⟩ ∧ salt.length = pre.size ∧ ts.subsecMillis = 0 := by
  unfold RandomnessPayload.try_new at h
  by_cases h1 : salt.length = pre.size
  · by_cases h2 : ts.subsecMillis = 0
    · refine ⟨?_, h1, h2⟩
      simp [RandomnessPayloadRaw.verify, h1, h2] at h
      exact h.symm
    · simp [RandomnessPayloadRaw.verify, h1, h2] at h
  · simp [RandomnessPayloadRaw.verify, h1] at h

/-- C2: `publish` succeeds only from `Prepared`; on success it saves
the pulse to the store, then writes `rand` to `rng.dat`, moves to
`Released{rand, latest = pulse}` and returns the pulse; when the store
save fails the state is unchanged and `rng.dat` is untouched; in any
other state it errors and has no effect. -/
theorem publish_spec {T : Type} (st : AssemblyState T)
    (saveOk writeOk : Bool) :
    ((∀ r p, st ≠ .prepared r p) →
      publish st saveOk writeOk = (.error .publishNotPrepared, st, [])) ∧
    (∀ r p, st = .prepared r p → saveOk = true → writeOk = true →
      publish st saveOk writeOk =
        (.ok p, .released r p, [.storeSave p, .rngWrite r])) ∧
    (∀ r p, st = .prepared r p → saveOk = false →
      publish st saveOk writeOk = (.error .storeSaveFailed, st, [])) := by
  refine ⟨?_, ?_, ?_⟩
  · intro h
    cases st with
    | beginStrand p => rfl
    | prepared r p => exact absurd rfl (h r p)
    | released r t => rfl
  · rintro r p rfl rfl rfl
    rfl
  · rintro r p rfl rfl
    rfl

/-- Witness for C2: publishing from `Prepared{[1], 5}` with both
external operations succeeding. -/
theorem publish_spec_witness :
    publish (T := Nat) (.prepared [1] 5) true true =
      (.ok 5, .released [1] 5, [.storeSave 5, .rngWrite [1]]) :=
  (publish_spec (T := Nat) (.prepared [1] 5) true true).2.1 [1] 5 rfl rfl rfl

/-- C4: `prepare_next` errors and leaves the state unchanged when
`needs_assembly()` is false; from `BeginStrand` with the strand save
succeeding and from `Released`, a successful build yields `.ok` and
the state `Prepared{rand_next, the pulse the builder returned}`; every
success stores a builder output this way; on any failure (strand save,
builder, signer or payload error) the state is unchanged. -/
theorem prepare_next_spec {T : Type} (st : AssemblyState T)
    (randNext : List Nat) (saveStrandOk : Bool)
    (buildFirst buildNext : Except AssemblerError T) :
    (needs_assembly st = false →
      prepare_next st randNext saveStrandOk buildFirst buildNext =
        (.error .prepareNotNeeded, st)) ∧
    (∀ p, st = .beginStrand p → saveStrandOk = true →
      ∀ t, buildFirst = .ok t →
        prepare_next st randNext saveStrandOk buildFirst buildNext =
          (.ok (), .prepared randNext t)) ∧
    (∀ r l, st = .released r l → ∀ t, buildNext = .ok t →
      prepare_next st randNext saveStrandOk buildFirst buildNext =
        (.ok (), .prepared randNext t)) ∧
    ((prepare_next st randNext saveStrandOk buildFirst buildNext).1 =
        .ok () →
      ∃ t, (prepare_next st randNext saveStrandOk buildFirst buildNext).2 =
          .prepared randNext t ∧
        ((∃ p, st = .beginStrand p) ∧ buildFirst = .ok t ∨
          (∃ r l, st = .released r l) ∧ buildNext = .ok t)) ∧
    (∀ e, (prepare_next st randNext saveStrandOk buildFirst buildNext).1 =
        .error e →
      (prepare_next st randNext saveStrandOk buildFirst buildNext).2 = st) := by
  refine ⟨?_, ?_, ?_, ?_, ?_⟩
  · intro h
    cases st with
    | beginStrand p => simp [needs_assembly] at h
    | prepared r p => rfl
    | released r t => simp [needs_assembly] at h
  · rintro p rfl rfl t rfl
    rfl
  · rintro r l rfl t rfl
    rfl
  · intro h
    cases st with
    | beginStrand p =>
      cases hs : saveStrandOk with
      | false => simp [prepare_next, hs] at h
      | true =>
        cases hb : buildFirst with
        | ok t =>
          exact ⟨t, by simp [prepare_next, hs, hb],
            Or.inl ⟨⟨p, rfl⟩, rfl⟩⟩
        | error e => simp [prepare_next, hs, hb] at h
    | prepared r p => simp [prepare_next] at h
    | released r t =>
      cases hb : buildNext with
      | ok t2 =>
        exact ⟨t2, by simp [prepare_next, hb],
          Or.inr ⟨⟨r, t, rfl⟩, rfl⟩⟩
      | error e => simp [prepare_next, hb] at h
  · intro e h
    cases st with
    | beginStrand p =>
      cases hs : saveStrandOk with
      | false => simp [prepare_next, hs]
      | true =>
        cases hb : buildFirst with
        | ok t => simp [prepare_next, hs, hb] at h
        | error e2 => simp [prepare_next, hs, hb]
    | prepared r p => rfl
    | released r t =>
      cases hb : buildNext with
      | ok t2 => simp [prepare_next, hb] at h
      | error e2 => simp [prepare_next, hb]

/-- Witness for C4: a successful `prepare_next` from `Released` lands
in `Prepared` carrying the supplied next randomness and exactly the
pulse the builder returned (9, not the previous latest 7). -/
theorem prepare_next_spec_witness :
    prepare_next (T := Nat) (.released [2] 7) [3] true (.ok 8) (.ok 9) =
      (.ok (), .prepared [3] 9) :=
  (prepare_next_spec (T := Nat) (.released [2] 7) [3] true
    (.ok 8) (.ok 9)).2.2.1 [2] 7 rfl 9 rfl

/-- C7: `init` on a fresh assembler: `NotFound` yields
`BeginStrand(period)`; a found latest pulse reads `rng.dat`, failing on
a read error or when the contents are not exactly 64 bytes and
otherwise yielding `Released{rng.dat contents, latest}`; other store
errors propagate. -/
theorem load_state_spec {T : Type} (periodSecs : Int)
    (resolve : ResolveLatest T) (rngFile : Option (List Nat)) :
    (resolve = .notFound →
      load_state (T := T) none periodSecs resolve rngFile =
        .ok (some (.beginStrand periodSecs))) ∧
    (∀ latest, resolve = .found latest →
      (∀ bytes, rngFile = some bytes →
        (bytes.length = 64 →
          load_state (T := T) none periodSecs resolve rngFile =
            .ok (some (.released bytes latest))) ∧
        (bytes.length ≠ 64 →
          load_state (T := T) none periodSecs resolve rngFile =
            .error (.invalidRngLength bytes.length))) ∧
      (rngFile = none →
        load_state (T := T) none periodSecs resolve rngFile =
          .error .rngReadFailed)) ∧
    (resolve = .otherError →
      load_state (T := T) none periodSecs resolve rngFile =
        .error .resolutionFailed) := by
  refine ⟨?_, ?_, ?_⟩
  · rintro rfl
    rfl
  · rintro latest rfl
    refine ⟨?_, ?_⟩
    · rintro bytes rfl
      constructor
      · intro h64
        simp [load_state, h64]
      · intro h64
        simp [load_state, h64]
    · rintro rfl
      rfl
  · rintro rfl
    rfl

/-- Witness for C7: a found latest pulse together with a 64-byte
`rng.dat` yields the `Released` state holding those bytes. -/
theorem load_state_spec_witness :
    load_state (T := Nat) none 60 (.found 5) (some (List.replicate 64 0)) =
      .ok (some (.released (List.replicate 64 0) 5)) :=
  (((load_state_spec (T := Nat) 60 (.found 5)
    (some (List.replicate 64 0))).2.1 5 rfl).1 (List.replicate 64 0)
    rfl).1 (by simp)

/-- C10: once `receive` has accepted and stored `m`, it stores `m` as
latest; a later well-formed message is returned only when its timestamp
is not older than `m`'s and its id differs from `m`'s, and a message
rejected on either ground yields `none` and leaves the stored latest
unchanged. -/
theorem receive_spec (l0 : Option Message) (m m2 : Message)
    (hacc : (Messenger.receive l0 m).1 = some m) :
    (Messenger.receive l0 m).2 = some m ∧
    (∀ r, (Messenger.receive (some m) m2).1 = some r →
      m2.timestamp.lt m.timestamp = false ∧ m2.id ≠ m.id) ∧
    ((m2.timestamp.lt m.timestamp = true ∨ m2.id = m.id) →
      Messenger.receive (some m) m2 = (none, some m)) := by
  refine ⟨?_, ?_, ?_⟩
  · cases l0 with
    | none => rfl
    | some l =>
      unfold Messenger.receive at hacc ⊢
      by_cases h1 : m.timestamp.lt l.timestamp = true
      · simp [h1] at hacc
      · by_cases h2 : m.id = l.id
        · simp [h1, h2] at hacc
        · simp [h1, h2]
  · intro r h
    unfold Messenger.receive at h
    by_cases h1 : m2.timestamp.lt m.timestamp = true
    · simp [h1] at h
    · by_cases h2 : m2.id = m.id
      · simp [h1, h2] at h
      · exact ⟨by simpa using h1, h2⟩
  · intro h
    unfold Messenger.receive
    rcases h with h1 | h2
    · simp [h1]
    · by_cases h1 : m2.timestamp.lt m.timestamp = true
      · simp [h1]
      · simp [h1, h2]

/-- Witness for C10: a duplicate id is rejected and the stored latest
message stays `m`. -/
theorem receive_spec_witness :
    Messenger.receive (some ⟨1, ⟨0, 0⟩, "sync", none⟩)
      ⟨1, ⟨5, 0⟩, "sync", none⟩ = (none, some ⟨1, ⟨0, 0⟩, "sync", none⟩) :=
  (receive_spec none ⟨1, ⟨0, 0⟩, "sync", none⟩
    ⟨1, ⟨5, 0⟩, "sync", none⟩ rfl).2.2 (Or.inr rfl)

/-- C5 counterexample: a timestamp with a nonzero subsecond component
(500000 ns) passes `try_new`, because `verify` only rejects nonzero
whole milliseconds. -/
theorem c5_counterexample :
    RandomnessPayload.try_new [0, 0] ⟨18, [1, 2]⟩ ⟨0, 500000⟩ =
      .ok ⟨[0, 0], ⟨18, [1, 2]⟩, ⟨0, 500000⟩⟩ ∧
    (500000 : Nat) ≠ 0 := ⟨rfl, by decide⟩

/-- C5 amended: `try_new` fails with the subsecond error exactly for
timestamps whose subsecond-millisecond part is nonzero (given the salt
length matches), and every payload that passes verification has
`subsec_millis = 0` (sub-millisecond nanoseconds may remain). -/
theorem c5_amended (salt : List Nat) (pre : Multihash) (ts : DateTime) :
    (salt.length = pre.size → ts.subsecMillis ≠ 0 →
      RandomnessPayload.try_new salt pre ts =
        .error (.payload "Timestamp has milliseconds")) ∧
    (∀ pl, RandomnessPayload.try_new salt pre ts = .ok pl →
      pl.timestamp.subsecMillis = 0) := by
  constructor
  · intro h1 h2
    simp [RandomnessPayload.try_new, RandomnessPayloadRaw.verify, h1, h2]
  · intro pl h
    obtain ⟨hpl, _, h0⟩ := try_new_ok salt pre ts pl h
    rw [hpl]
    exact h0

/-- Witness for C5 amended: a 5 ms subsecond component is rejected. -/
theorem c5_amended_witness :
    RandomnessPayload.try_new [0] ⟨18, [5]⟩ ⟨0, 5000000⟩ =
      .error (.payload "Timestamp has milliseconds") :=
  (c5_amended [0] ⟨18, [5]⟩ ⟨0, 5000000⟩).1 rfl (by decide)

/-- C1: evaluation at the failing input.  First conjunct: the
re-derived `H(rand)` equals the predecessor's precommitment
`⟨18, [8, 2]⟩`; yet `validate_randomness` rejects the payload, because
the source compares `H(rand)` against the payload's own `pre` field
rather than the predecessor's.  Third conjunct: conversely a payload
whose own `pre` equals `H(rand)` is accepted even though the
predecessor's precommitment (`⟨18, [9, 9]⟩`) does not match. -/
theorem c1_failing_eval :
    exDigest 18 (List.zipWith Nat.xor [5, 6] [1, 2]) = ⟨18, [8, 2]⟩ ∧
    RandomnessPayload.validate_randomness exSupported exDigest
      ⟨[5, 6], ⟨18, [9, 9]⟩, ⟨10, 0⟩⟩
      ⟨⟨18, [1, 2]⟩, ⟨[0, 0], ⟨18, [8, 2]⟩, ⟨0, 0⟩⟩⟩ =
      .error (.payload "Pre hash does not match previous tixel pre hash") ∧
    RandomnessPayload.validate_randomness exSupported exDigest
      ⟨[5, 6], ⟨18, [8, 2]⟩, ⟨10, 0⟩⟩
      ⟨⟨18, [1, 2]⟩, ⟨[0, 0], ⟨18, [9, 9]⟩, ⟨0, 0⟩⟩⟩ = .ok () :=
  ⟨rfl, rfl, rfl⟩

/-- C6 counterexample: a payload whose timestamp equals the
predecessor's (so is not strictly greater) passes
`validate_randomness` without any timestamp error. -/
theorem c6_counterexample :
    DateTime.lt ⟨0, 0⟩ ⟨0, 0⟩ = false ∧
    RandomnessPayload.validate_randomness exSupported exDigest
      ⟨[5, 6], ⟨18, [8, 2]⟩, ⟨0, 0⟩⟩
      ⟨⟨18, [1, 2]⟩, ⟨[0, 0], ⟨18, [8, 2]⟩, ⟨0, 0⟩⟩⟩ = .ok () :=
  ⟨rfl, rfl⟩

/-- The only errors `verify` produces are the salt-length and the
milliseconds messages. -/
theorem verify_error_msgs (p : RandomnessPayloadRaw) (e : VerificationError)
    (h : p.verify = .error e) :
    e = .payload "Salt length does not match pre hash size" ∨
    e = .payload "Timestamp has milliseconds" := by
  unfold RandomnessPayloadRaw.verify at h
  by_cases h1 : p.salt.length ≠ p.pre.size
  · rw [if_pos h1] at h
    injection h with h
    exact Or.inl h.symm
  · rw [if_neg h1] at h
    by_cases h2 : p.timestamp.subsecMillis ≠ 0
    · rw [if_pos h2] at h
      injection h with h
      exact Or.inr h.symm
    · rw [if_neg h2] at h
      cases h

/-- Payload extraction errs exactly when the stored payload fails
`verify`, with the same error. -/
theorem extractPayload_error_iff (t : Tixel) (e : VerificationError) :
    t.extractPayload = .error e ↔ t.payload.verify = .error e := by
  unfold Tixel.extractPayload
  cases hv : t.payload.verify with
  | ok u =>
    cases u
    simp
  | error e2 => simp

/-- Payload extraction succeeds exactly when the stored payload passes
`verify`, returning that payload. -/
theorem extractPayload_ok_iff (t : Tixel) (pl : RandomnessPayloadRaw) :
    t.extractPayload = .ok pl ↔
      (t.payload.verify = .ok () ∧ pl = t.payload) := by
  unfold Tixel.extractPayload
  cases hv : t.payload.verify with
  | ok u =>
    cases u
    simp [eq_comm]
  | error e2 => simp

/-- The only error `Code::try_from` produces is the unsupported-hash
error. -/
theorem tryFromCode_error_eq (cs : Nat → Bool) (c : Nat)
    (e : VerificationError) (h : tryFromCode cs c = .error e) :
    e = .unsupportedHashAlgorithm := by
  unfold tryFromCode at h
  by_cases hb : cs c = true
  · rw [if_pos hb] at h
    cases h
  · rw [if_neg hb] at h
    injection h with h
    exact h.symm

/-- C6 amended: given the size check passes, `validate` returns the
timestamp error exactly when the predecessor's payload verifies and
the payload's timestamp is strictly LESS than the predecessor's, so
equal successive timestamps are accepted: the chain invariant the code
enforces is `timestamp_i ≥ timestamp_{i-1}`, not strict growth. -/
theorem c6_amended (codeSupported : Nat → Bool)
    (codeDigest : Nat → List Nat → Multihash) (p : RandomnessPayloadRaw)
    (prev : Tixel) (hsz : prev.cidHash.size = p.pre.size) :
    RandomnessPayload.validate_randomness codeSupported codeDigest p prev =
        .error (.payload "Timestamp is less than previous tixel timestamp")
      ↔ (prev.payload.verify = .ok () ∧
          p.timestamp.lt prev.payload.timestamp = true) := by
  constructor
  · intro h
    unfold RandomnessPayload.validate_randomness at h
    rw [if_neg (by simp [hsz])] at h
    cases hx : prev.extractPayload with
    | error e =>
      rw [hx] at h
      injection h with he
      rcases verify_error_msgs prev.payload e
        ((extractPayload_error_iff prev e).mp hx) with h2 | h2 <;>
        rw [h2] at he <;> simp at he
    | ok prevPayload =>
      obtain ⟨hok, hpl⟩ := (extractPayload_ok_iff prev prevPayload).mp hx
      subst hpl
      rw [hx] at h
      by_cases hlt : p.timestamp.lt prev.payload.timestamp = true
      · exact ⟨hok, hlt⟩
      · exfalso
        simp only [hlt, if_false, Bool.false_eq_true] at h
        cases hc : tryFromCode codeSupported prev.payload.pre.code with
        | error e =>
          rw [hc] at h
          rw [tryFromCode_error_eq codeSupported _ e hc] at h
          simp at h
        | ok code =>
          rw [hc] at h
          dsimp only at h
          by_cases hd : codeDigest code
              (List.zipWith Nat.xor p.salt prev.cidHash.digest) ≠ p.pre
          · rw [if_pos hd] at h
            simp at h
          · rw [if_neg hd] at h
            cases h
  · rintro ⟨hok, hlt⟩
    unfold RandomnessPayload.validate_randomness
    rw [if_neg (by simp [hsz])]
    have hx : prev.extractPayload = .ok prev.payload :=
      (extractPayload_ok_iff prev prev.payload).mpr ⟨hok, rfl⟩
    rw [hx]
    dsimp only
    rw [if_pos hlt]

/-- Witness for C6 amended: a payload one second older than its
predecessor is rejected with the timestamp error. -/
theorem c6_amended_witness :
    RandomnessPayload.validate_randomness exSupported exDigest
      ⟨[5, 6], ⟨18, [8, 2]⟩, ⟨4, 0⟩⟩
      ⟨⟨18, [1, 2]⟩, ⟨[0, 0], ⟨18, [8, 2]⟩, ⟨5, 0⟩⟩⟩ =
      .error (.payload "Timestamp is less than previous tixel timestamp") :=
  (c6_amended exSupported exDigest ⟨[5, 6], ⟨18, [8, 2]⟩, ⟨4, 0⟩⟩
    ⟨⟨18, [1, 2]⟩, ⟨[0, 0], ⟨18, [8, 2]⟩, ⟨5, 0⟩⟩⟩ rfl).mpr ⟨rfl, rfl⟩

/-- C3: with the predecessor's payload extractable and its hash code
supported, `from_rand` fails with the precommitment-mismatch error
unless `H(rand)` equals the predecessor's precommitment, and any
successful result has `salt = rand XOR digest(predecessor.identifier)`
with `len(salt) = hash_size(pre)` and
`timestamp = predecessor.timestamp + period`. -/
theorem c3_from_rand_spec (codeSupported : Nat → Bool)
    (codeDigest : Nat → List Nat → Multihash) (rand : List Nat)
    (pre : Multihash) (prev : Tixel) (periodSecs : Int)
    (prevPayload : RandomnessPayloadRaw)
    (hex : prev.extractPayload = .ok prevPayload)
    (hsup : codeSupported prevPayload.pre.code = true) :
    (prevPayload.pre ≠ codeDigest prevPayload.pre.code rand →
      RandomnessPayload.from_rand codeSupported codeDigest rand pre prev
        periodSecs =
        .error (.payload "Precommitment does not match random bytes")) ∧
    (∀ pl, RandomnessPayload.from_rand codeSupported codeDigest rand pre
        prev periodSecs = .ok pl →
      pl.salt = List.zipWith Nat.xor rand prev.cidHash.digest ∧
      pl.salt.length = pre.size ∧
      pl.timestamp = nextPulseTimestamp prevPayload.timestamp periodSecs) := by
  have hc : tryFromCode codeSupported prevPayload.pre.code =
      .ok prevPayload.pre.code := by
    unfold tryFromCode
    rw [if_pos hsup]
  constructor
  · intro hne
    unfold RandomnessPayload.from_rand
    rw [hex]
    dsimp only
    rw [hc]
    dsimp only
    rw [if_pos hne]
  · intro pl h
    unfold RandomnessPayload.from_rand at h
    rw [hex] at h
    dsimp only at h
    rw [hc] at h
    dsimp only at h
    by_cases hne : prevPayload.pre ≠ codeDigest prevPayload.pre.code rand
    · rw [if_pos hne] at h
      cases h
    · rw [if_neg hne] at h
      by_cases hsz : prev.cidHash.size ≠ pre.size
      · rw [if_pos hsz] at h
        cases h
      · rw [if_neg hsz] at h
        obtain ⟨hpl, hlen, _⟩ := try_new_ok _ _ _ _ h
        subst hpl
        exact ⟨rfl, hlen, rfl⟩

/-- Witness for C3: a concrete successful `from_rand` whose salt is the
xor of the reveal with the predecessor cid digest and whose timestamp
advances by the period. -/
theorem c3_from_rand_spec_witness :
    ([5, 6] : List Nat) = List.zipWith Nat.xor [4, 4] [1, 2] ∧
    ([5, 6] : List Nat).length = (⟨18, [7, 7]⟩ : Multihash).size ∧
    (⟨60, 0⟩ : DateTime) = nextPulseTimestamp ⟨0, 0⟩ 60 :=
  (c3_from_rand_spec exSupported exDigest [4, 4] ⟨18, [7, 7]⟩
    ⟨⟨18, [1, 2]⟩, ⟨[0, 0], ⟨18, [8, 2]⟩, ⟨0, 0⟩⟩⟩ 60
    ⟨[0, 0], ⟨18, [8, 2]⟩, ⟨0, 0⟩⟩ rfl rfl).2
    ⟨[5, 6], ⟨18, [7, 7]⟩, ⟨60, 0⟩⟩ rfl

/-- One refresh step keeps every entry whose strand differs from the
processed strand, and keeps everything when resolution fails. -/
theorem refreshStep_mem (res : Nat → Option Nat) (acc : List Stitch)
    (cid : Nat) (s : Stitch) (hs : s ∈ acc)
    (h : s.strand ≠ cid ∨ res cid = none) :
    s ∈ refreshStep res acc cid := by
  unfold refreshStep addOrRefresh
  cases hres : res cid with
  | none => exact hs
  | some t =>
    have hne : s.strand ≠ cid := by
      rcases h with h | h
      · exact h
      · rw [hres] at h
        cases h
    dsimp only
    by_cases hany : acc.any (fun s2 => s2.strand == cid) = true
    · rw [if_pos hany]
      have : (if s.strand == cid then (⟨cid, t⟩ : Stitch) else s) = s := by
        rw [if_neg]
        simp [hne]
      exact this ▸ List.mem_map_of_mem _ hs
    · rw [if_neg hany]
      exact List.mem_append_left _ hs

/-- Folding refresh steps over any strand list preserves every entry
that each processed strand either differs from or fails to resolve. -/
theorem foldl_refreshStep_mem (res : Nat → Option Nat) (s : Stitch) :
    ∀ (l : List Nat) (acc : List Stitch), s ∈ acc →
      (∀ cid ∈ l, s.strand ≠ cid ∨ res cid = none) →
      s ∈ l.foldl (refreshStep res) acc := by
  intro l
  induction l with
  | nil =>
    intro acc hs _
    exact hs
  | cons cid rest ih =>
    intro acc hs hl
    exact ih (refreshStep res acc cid)
      (refreshStep_mem res acc cid s hs (hl cid (List.mem_cons_self cid rest)))
      (fun c hc => hl c (List.mem_cons_of_mem cid hc))

/-- C8: `refresh_stitches` keeps unchanged every previous entry whose
strand is outside the configured non-stop strand set (stop entries
included), and keeps the prior entry whenever resolution of a
configured strand fails; entries are never implicitly removed. -/
theorem c8_refresh_preserves (xs : List Stitch)
    (stitches : List StitchEntry) (res : Nat → Option Nat) (s : Stitch)
    (hs : s ∈ xs)
    (h : s.strand ∉ StitchConfig.strands stitches ∨ res s.strand = none) :
    s ∈ refresh_stitches xs stitches res := by
  unfold refresh_stitches
  refine foldl_refreshStep_mem res s (StitchConfig.strands stitches) xs hs ?_
  intro cid hcid
  rcases h with h | h
  · left
    intro he
    exact h (he ▸ hcid)
  · by_cases he : s.strand = cid
    · right
      rw [← he]
      exact h
    · left
      exact he

/-- Witness for C8: an entry for a strand absent from the non-stop
configuration (its only config entry is `stop = true`) survives a
refresh untouched. -/
theorem c8_refresh_preserves_witness :
    (⟨1, 10⟩ : Stitch) ∈ refresh_stitches [⟨1, 10⟩]
      [⟨1, "", true⟩, ⟨2, "", false⟩] (fun _ => some 99) :=
  c8_refresh_preserves [⟨1, 10⟩] [⟨1, "", true⟩, ⟨2, "", false⟩]
    (fun _ => some 99) ⟨1, 10⟩ (by simp)
    (Or.inl (by simp [StitchConfig.strands]))

/-- A failed accumulator stays failed through the digit fold. -/
theorem foldl_stepU16_none (radix : Nat) (l : List Nat) :
    l.foldl (stepU16 radix) none = none := by
  induction l with
  | nil => rfl
  | cons b rest ih => exact ih

/-- Any byte `from_str_radix` accepts as a digit is ASCII. -/
theorem digitVal_lt128 (radix b d : Nat) (h : digitVal radix b = some d) :
    b < 128 := by
  unfold digitVal at h
  split_ifs at h <;> omega

/-- A successful digit run starts with a valid digit byte. -/
theorem parseDigitsPos_head (radix b : Nat) (rest : List Nat) (v : Nat)
    (h : parseDigitsPos radix (b :: rest) = some v) :
    ∃ d, digitVal radix b = some d := by
  unfold parseDigitsPos at h
  rw [if_neg (by simp)] at h
  cases hd : digitVal radix b with
  | some d => exact ⟨d, rfl⟩
  | none =>
    exfalso
    have h0 : stepU16 radix (some 0) b = none := by simp [stepU16, hd]
    rw [List.foldl_cons, h0, foldl_stepU16_none] at h
    cases h

/-- Any string `from_str_radix` parses successfully starts with an
ASCII byte (a sign or a digit). -/
theorem fromStrRadix_head (radix : Nat) (s : List Nat) (v : Nat)
    (h : fromStrRadixU16 radix s = some v) : s.headD 0 < 128 := by
  cases s with
  | nil => cases h
  | cons b rest =>
    unfold fromStrRadixU16 at h
    dsimp only at h
    by_cases h43 : b = 43
    · subst h43
      simp
    · rw [if_neg h43] at h
      obtain ⟨d, hd⟩ := parseDigitsPos_head radix b rest v h
      simpa using digitVal_lt128 radix b d hd

/-- C9 counterexample: the one-character decimal string "5" (byte 53)
denotes 5, which fits in u16, yet `parse_u16` panics on it because
`split_at(2)` is out of bounds. -/
theorem c9_counterexample :
    parse_u16 [53] = .panicked ∧ fromStrRadixU16 10 [53] = some 5 :=
  ⟨rfl, rfl⟩

/-- C9 amended: `parse_u16` returns the decimal value of any all-digit
string of at least two bytes that fits in u16, returns the value of any
`0x`-prefixed hex string `from_str_radix` accepts, and panics exactly
on inputs shorter than two bytes or whose byte at index 2 is a UTF-8
continuation byte (a split off a char boundary). -/
theorem c9_amended (s : List Nat) :
    (∀ v, 2 ≤ s.length → (∀ b ∈ s, 48 ≤ b ∧ b ≤ 57) →
      fromStrRadixU16 10 s = some v → parse_u16 s = .ok v) ∧
    (∀ v, fromStrRadixU16 16 s = some v →
      parse_u16 (48 :: 120 :: s) = .ok v) ∧
    (parse_u16 s = .panicked ↔
      (s.length < 2 ∨ isUtf8Cont (s.getD 2 0) = true)) := by
  refine ⟨?_, ?_, ?_⟩
  · intro v hlen hdig hparse
    match s with
    | [] => simp at hlen
    | [a] => simp at hlen
    | a :: b :: rest =>
      have hbx : ¬(a = 48 ∧ b = 120) := by
        have hb := hdig b (by simp)
        omega
      cases rest with
      | nil => simp [parse_u16, isUtf8Cont, hbx, hparse]
      | cons c r2 =>
        have hc := hdig c (by simp)
        have hcont : isUtf8Cont c = false := by
          simp [isUtf8Cont]
          omega
        simp [parse_u16, hcont, hbx, hparse]
  · intro v h
    cases s with
    | nil => cases h
    | cons b rest =>
      have hb : b < 128 := by
        simpa using fromStrRadix_head 16 (b :: rest) v h
      have hcont : isUtf8Cont b = false := by
        simp [isUtf8Cont]
        omega
      simp [parse_u16, hcont, h]
  · match s with
    | [] => simp [parse_u16]
    | [a] => simp [parse_u16]
    | a :: b :: rest =>
      cases rest with
      | nil =>
        have hnp : parse_u16 [a, b] ≠ .panicked := by
          unfold parse_u16
          dsimp only
          rw [if_neg (by decide)]
          split <;> split <;> simp
        constructor
        · intro h
          exact absurd h hnp
        · intro h
          exfalso
          rcases h with h | h
          · simp at h
          · simp [isUtf8Cont] at h
      | cons c r2 =>
        by_cases hcc : isUtf8Cont c = true
        · simp [parse_u16, hcc]
        · constructor
          · intro h
            exfalso
            unfold parse_u16 at h
            simp only [List.headD_cons] at h
            rw [if_neg hcc] at h
            split at h <;> split at h <;> simp at h
          · intro h
            exfalso
            rcases h with h | h
            · simp at h
              omega
            · simp only [List.getD_cons_succ, List.getD_cons_zero] at h
              exact hcc h

/-- Witness for C9 amended: the two-digit decimal string "12" parses
to 12. -/
theorem c9_amended_witness : parse_u16 [49, 50] = .ok 12 :=
  (c9_amended [49, 50]).1 12 (by decide) (by decide) rfl
